/-
Verification of the parity-prototype flash swap simulator.

The development shallowly embeds the Rust sources:
  * `src/main.rs`  — the swap coordinator (`Status`), its `Slot`/`Page` model
    whose invalid-state operations abort the process (`panic!`), and the
    integrity primitives (SHA-256 digests, Merkle root, XOR parity block);
  * `src/flash.rs` — the simulated flash pages whose operations return
    explicit `Result` failure values instead of aborting.

Bytes are modelled as `Nat` (each `< 256` in every reachable state), byte
buffers as `List Nat`.  Operations that can `panic!` in `main.rs` return
`PanicOr α`; operations returning `anyhow::Result` in `flash.rs` return
`Except String α`.
-/
import Mathlib

set_option maxRecDepth 4000

/-- Compile-time page size, `const PAGE_SIZE: usize = 32` (both files). -/
def PAGE_SIZE : Nat := 32

/-- Flash state of a page (`enum PageState`, identical in both files). -/
inductive PageState where
  | Written
  | Erased
  | PartiallyWritten
  | PartiallyErased
deriving DecidableEq, Repr

/-- `struct Page { payload: Vec<u8>, pstate: PageState }`. -/
structure Page where
  payload : List Nat
  pstate : PageState
deriving DecidableEq, Repr

/-- `struct PageLocation { slot: usize, index: usize }` (usize as `Nat`). -/
structure PageLocation where
  slot : Nat
  index : Nat
deriving DecidableEq, Repr

/-- Outcome of a `main.rs` operation that may `panic!`: either a value or a
process abort carrying the panic message. -/
inductive PanicOr (α : Type) where
  | ok : α → PanicOr α
  | panicked : String → PanicOr α
deriving DecidableEq, Repr

/-- UTF-8 bytes of an ASCII string (all strings written by the program are
ASCII, where code points coincide with UTF-8 bytes). -/
def strBytes (s : String) : List Nat :=
  s.data.map Char.toNat

/-- The bytes `write!(writer, "Slot {}, page {}, data", slot, index)` deposits
at the front of a page buffer whose remaining bytes stay `0xFF`
(`Page::new` in `main.rs`, `Page::fill` in `flash.rs`). -/
def fillBytes (slot index : Nat) : List Nat :=
  let msg := strBytes ("Slot " ++ toString slot ++ ", page " ++ toString index ++ ", data")
  msg ++ List.replicate (PAGE_SIZE - msg.length) 0xFF

/-- `Page::new` (`main.rs`): an erased page, or one seeded from its location. -/
def Page.new (init : Option PageLocation) : Page :=
  match init with
  | some loc => { payload := fillBytes loc.slot loc.index, pstate := PageState.Written }
  | none => { payload := List.replicate PAGE_SIZE 0xFF, pstate := PageState.Erased }

/-- `Page::check` (`main.rs`): panics when state or payload differs from the
freshly seeded page for `loc`. -/
def Page.check (p : Page) (loc : PageLocation) : PanicOr Unit :=
  let expected := Page.new (some loc)
  if p.pstate ≠ expected.pstate then PanicOr.panicked "Page state is incorrect"
  else if p.payload ≠ expected.payload then PanicOr.panicked "Page contents is incorrect"
  else PanicOr.ok ()

/-- `buf.write_u32::<LittleEndian>(x)`: the four little-endian bytes of
`x as u32` (the Rust cast truncates `usize` to 32 bits). -/
def le32 (x : Nat) : List Nat :=
  let w := x % 4294967296
  [w % 256, w / 256 % 256, w / 65536 % 256, w / 16777216 % 256]

/-- The byte string `Page::digest` feeds to SHA-256: both location words,
little-endian encoded, concatenated before the payload. -/
def digestInput (slot index : Nat) (payload : List Nat) : List Nat :=
  le32 slot ++ le32 index ++ payload

-- ---------------------------------------------------------------------------
-- SHA-256 (FIPS 180-4) over byte lists, the function the `sha2` crate
-- computes for `Sha256::new` / `update` / `finalize`.
-- ---------------------------------------------------------------------------

/-- Truncation to a 32-bit word. -/
def w32 (x : Nat) : Nat := x % 4294967296

/-- Right rotation of a 32-bit word. -/
def rotr (n x : Nat) : Nat := w32 ((x >>> n) ||| (x <<< (32 - n)))

def bigS0 (x : Nat) : Nat := rotr 2 x ^^^ rotr 13 x ^^^ rotr 22 x
def bigS1 (x : Nat) : Nat := rotr 6 x ^^^ rotr 11 x ^^^ rotr 25 x
def smallS0 (x : Nat) : Nat := rotr 7 x ^^^ rotr 18 x ^^^ (x >>> 3)
def smallS1 (x : Nat) : Nat := rotr 17 x ^^^ rotr 19 x ^^^ (x >>> 10)
def chF (x y z : Nat) : Nat := (x &&& y) ^^^ ((x ^^^ 4294967295) &&& z)
def majF (x y z : Nat) : Nat := (x &&& y) ^^^ (x &&& z) ^^^ (y &&& z)

/-- The 64 round constants of FIPS 180-4 section 4.2.2, in decimal. -/
def sha256K : Array Nat := #[
  1116352408, 1899447441, 3049323471, 3921009573, 961987163, 1508970993,
  2453635748, 2870763221, 3624381080, 310598401, 607225278, 1426881987,
  1925078388, 2162078206, 2614888103, 3248222580, 3835390401, 4022224774,
  264347078, 604807628, 770255983, 1249150122, 1555081692, 1996064986,
  2554220882, 2821834349, 2952996808, 3210313671, 3336571891, 3584528711,
  113926993, 338241895, 666307205, 773529912, 1294757372, 1396182291,
  1695183700, 1986661051, 2177026350, 2456956037, 2730485921, 2820302411,
  3259730800, 3345764771, 3516065817, 3600352804, 4094571909, 275423344,
  430227734, 506948616, 659060556, 883997877, 958139571, 1322822218,
  1537002063, 1747873779, 1955562222, 2024104815, 2227730452, 2361852424,
  2428436474, 2756734187, 3204031479, 3329325298]

/-- The initial hash value of FIPS 180-4 section 5.3.3, in decimal. -/
def sha256H0 : List Nat :=
  [1779033703, 3144134277, 1013904242, 2773480762,
   1359893119, 2600822924, 528734635, 1541459225]

/-- Big-endian bytes of the 64-bit message bit length. -/
def be64 (x : Nat) : List Nat :=
  [x >>> 56 % 256, x >>> 48 % 256, x >>> 40 % 256, x >>> 32 % 256,
   x >>> 24 % 256, x >>> 16 % 256, x >>> 8 % 256, x % 256]

/-- SHA-256 padding: `0x80`, zeros to 56 mod 64, then the bit length. -/
def sha256Pad (msg : List Nat) : List Nat :=
  msg ++ 0x80 :: List.replicate ((64 - (msg.length + 9) % 64) % 64) 0 ++ be64 (8 * msg.length)

/-- Big-endian 32-bit words of a byte list (groups of four). -/
def beWords : List Nat → List Nat
  | a :: b :: c :: d :: rest => (a * 16777216 + b * 65536 + c * 256 + d) :: beWords rest
  | _ => []

/-- Big-endian bytes of a list of 32-bit words. -/
def wordsToBytes : List Nat → List Nat
  | [] => []
  | w :: rest => [w >>> 24 % 256, w >>> 16 % 256, w >>> 8 % 256, w % 256] ++ wordsToBytes rest

/-- Message-schedule extension: push `fuel` more words onto `w`. -/
def extendW (w : Array Nat) : Nat → Array Nat
  | 0 => w
  | fuel + 1 =>
    let n := w.size
    extendW (w.push (w32 (smallS1 (w.getD (n - 2) 0) + w.getD (n - 7) 0 +
      smallS0 (w.getD (n - 15) 0) + w.getD (n - 16) 0))) fuel

/-- One compression round. -/
def sha256Round (w : Array Nat) (t : Nat) :
    Nat × Nat × Nat × Nat × Nat × Nat × Nat × Nat → Nat × Nat × Nat × Nat × Nat × Nat × Nat × Nat
  | (a, b, c, d, e, f, g, h) =>
    let t1 := w32 (h + bigS1 e + chF e f g + sha256K.getD t 0 + w.getD t 0)
    let t2 := w32 (bigS0 a + majF a b c)
    (w32 (t1 + t2), a, b, c, w32 (d + t1), e, f, g)

def sha256Rounds (w : Array Nat) (t : Nat) :
    Nat → Nat × Nat × Nat × Nat × Nat × Nat × Nat × Nat → Nat × Nat × Nat × Nat × Nat × Nat × Nat × Nat
  | 0, st => st
  | fuel + 1, st => sha256Rounds w (t + 1) fuel (sha256Round w t st)

/-- Compress one 16-word block into the running hash state. -/
def sha256Compress (h : List Nat) (block : List Nat) : List Nat :=
  match h with
  | [h0, h1, h2, h3, h4, h5, h6, h7] =>
    let w := extendW block.toArray 48
    match sha256Rounds w 0 64 (h0, h1, h2, h3, h4, h5, h6, h7) with
    | (a, b, c, d, e, f, g, hh) =>
      [w32 (h0 + a), w32 (h1 + b), w32 (h2 + c), w32 (h3 + d),
       w32 (h4 + e), w32 (h5 + f), w32 (h6 + g), w32 (h7 + hh)]
  | _ => []

/-- Fold the compression function over the 16-word blocks of the padded
message. -/
def sha256Blocks (h : List Nat) : List Nat → List Nat
  | w0 :: w1 :: w2 :: w3 :: w4 :: w5 :: w6 :: w7 ::
    w8 :: w9 :: w10 :: w11 :: w12 :: w13 :: w14 :: w15 :: rest =>
    sha256Blocks (sha256Compress h [w0, w1, w2, w3, w4, w5, w6, w7,
      w8, w9, w10, w11, w12, w13, w14, w15]) rest
  | _ => h

/-- SHA-256 of a byte list, as 32 bytes. -/
def sha256 (msg : List Nat) : List Nat :=
  wordsToBytes (sha256Blocks sha256H0 (beWords (sha256Pad msg)))

-- ---------------------------------------------------------------------------
-- `main.rs` Page operations
-- ---------------------------------------------------------------------------

/-- `Page::digest` (`main.rs`): SHA-256 over the location words followed by the
payload.  (The `Result` wrapper in the source can never fail: `write_u32`
into a `Vec` is infallible, so the digest is modelled as a total function.) -/
def Page.digest (p : Page) (loc : PageLocation) : List Nat :=
  sha256 (digestInput loc.slot loc.index p.payload)

/-- `Page::read` (`main.rs`): the payload when `Written`, otherwise a panic. -/
def Page.read (p : Page) : PanicOr (List Nat) :=
  match p.pstate with
  | PageState.Written => PanicOr.ok p.payload
  | _ => PanicOr.panicked "Invalid state for read"

/-- `Page::read_whatever` (`main.rs`): the raw buffer, regardless of state. -/
def Page.read_whatever (p : Page) : PanicOr (List Nat) :=
  PanicOr.ok p.payload

/-- `Page::erase` (`main.rs`): unconditionally reset to `0xFF` and `Erased`. -/
def Page.erase (p : Page) : Page :=
  { payload := List.replicate p.payload.length 0xFF, pstate := PageState.Erased }

/-- `Page::partial_erase` (`main.rs`): mark interrupted, data untouched. -/
def Page.partial_erase (p : Page) : Page :=
  { p with pstate := PageState.PartiallyErased }

/-- `Page::write` (`main.rs`): succeeds only from `Erased`, else panics.
(`copy_from_slice` additionally requires the buffer to be page-sized; the
claims about `write` carry that hypothesis.) -/
def Page.write (p : Page) (buffer : List Nat) : PanicOr Page :=
  match p.pstate with
  | PageState.Erased => PanicOr.ok { payload := buffer, pstate := PageState.Written }
  | _ => PanicOr.panicked "Attempt to write to unerased flash page"

/-- `Page::partial_write` (`main.rs`): performs `write`, then downgrades the
state to `PartiallyWritten`. -/
def Page.partial_write (p : Page) (buffer : List Nat) : PanicOr Page :=
  match p.write buffer with
  | PanicOr.ok q => PanicOr.ok { q with pstate := PageState.PartiallyWritten }
  | PanicOr.panicked m => PanicOr.panicked m

-- ---------------------------------------------------------------------------
-- `main.rs` Slot
-- ---------------------------------------------------------------------------

/-- `struct Slot { data: Vec<Page>, index: usize }` (`main.rs`). -/
structure Slot where
  data : List Page
  index : Nat
deriving DecidableEq, Repr

/-- `Slot::new` (`main.rs`): pages seeded from their locations. -/
def Slot.new (slot pages : Nat) : Slot :=
  { data := (List.range pages).map (fun i => Page.new (some ⟨slot, i⟩)), index := slot }

/-- The digests `Slot::compute_root` streams into the hash, in index order,
starting at index `i`. -/
def digestsFrom (slot : Nat) (i : Nat) : List Page → List Nat
  | [] => []
  | p :: rest => p.digest ⟨slot, i⟩ ++ digestsFrom slot (i + 1) rest

/-- `Slot::compute_root` (`main.rs`): SHA-256 over the concatenation of every
page's position-bound digest, pages in index order. -/
def Slot.compute_root (s : Slot) : List Nat :=
  sha256 (digestsFrom s.index 0 s.data)

/-- `result[i] ^= bt` for every byte of one page: XOR the bytes of `b` into
the front of `r`, keeping `r`'s remaining bytes.  (The source would abort on a
payload longer than `result`; the claims keep payloads page-sized.) -/
def xorInto : List Nat → List Nat → List Nat
  | r :: rs, b :: bs => (r ^^^ b) :: xorInto rs bs
  | r, [] => r
  | [], _ :: _ => []

/-- `Slot::compute_parity` (`main.rs`): byte-wise XOR of every page's payload
into a zeroed page-sized block. -/
def Slot.compute_parity (s : Slot) : List Nat :=
  s.data.foldl (fun r p => xorInto r p.payload) (List.replicate PAGE_SIZE 0)

-- ---------------------------------------------------------------------------
-- `main.rs` Status: the swap coordinator
-- ---------------------------------------------------------------------------

/-- `struct Status` (`main.rs`): both slots, the construction-time
commitments, and the swap progress fields.  The Rust array `slots: [Slot; 2]`
is modelled as the two fields `slot0` and `slot1`. -/
structure Status where
  slot0 : Slot
  slot1 : Slot
  root : List Nat
  parity : List Nat
  step : Nat
  stop : Option Nat
  resume : Option PageLocation
deriving DecidableEq, Repr

/-- `Status::new` (`main.rs`): two freshly seeded slots, `root` committed to
slot 1's initial content and `parity` to slot 0's. -/
def Status.new (size : Nat) : Status :=
  let slot0 := Slot.new 0 size
  let slot1 := Slot.new 1 size
  { slot0 := slot0, slot1 := slot1,
    root := slot1.compute_root, parity := slot0.compute_parity,
    step := 0, stop := none, resume := none }

/-- Configure the stop threshold (in the source, the `stop` field set by a
test harness; `Status::new` always leaves it `None`). -/
def Status.withStop (s : Status) (t : Nat) : Status :=
  { s with stop := some t }

/-- `Status::is_stop` (`main.rs`). -/
def Status.is_stop (s : Status) : Bool :=
  match s.stop with
  | some stop => decide (s.step > stop)
  | none => false

/-- Store page `p` at index `sec` of the given slot (the `slot!` macro's
assignment target in `main.rs`). -/
def Status.updPage (st : Status) (slot sec : Nat) (p : Page) : Status :=
  if slot = 0 then { st with slot0 := { st.slot0 with data := st.slot0.data.set sec p } }
  else { st with slot1 := { st.slot1 with data := st.slot1.data.set sec p } }

/-- Record the resume location. -/
def Status.withResume (st : Status) (loc : PageLocation) : Status :=
  { st with resume := some loc }

/-- One iteration of the `for sec in ..` loop of `Status::swap` (`main.rs`):
read both pages, then the four sub-steps, each preceded by a step increment
and a stop check.  Returns the updated status and whether the swap halted
at this page. -/
def swapPage (st : Status) (sec : Nat) : PanicOr (Status × Bool) :=
  match st.slot0.data[sec]?, st.slot1.data[sec]? with
  | some page0, some page1 =>
    match page0.read, page1.read with
    | PanicOr.panicked m, _ => PanicOr.panicked m
    | _, PanicOr.panicked m => PanicOr.panicked m
    | PanicOr.ok abuf, PanicOr.ok bbuf =>
      let st1 := { st with step := st.step + 1 }
      match st1.is_stop with
      | true =>
        PanicOr.ok ((st1.updPage 0 sec page0.partial_erase).withResume ⟨0, sec⟩, true)
      | false =>
        let page0e := page0.erase
        let st1 := st1.updPage 0 sec page0e
        let st2 := { st1 with step := st1.step + 1 }
        match st2.is_stop with
        | true =>
          match page0e.partial_write bbuf with
          | PanicOr.panicked m => PanicOr.panicked m
          | PanicOr.ok p => PanicOr.ok ((st2.updPage 0 sec p).withResume ⟨0, sec⟩, true)
        | false =>
          match page0e.write bbuf with
          | PanicOr.panicked m => PanicOr.panicked m
          | PanicOr.ok page0w =>
            let st2 := st2.updPage 0 sec page0w
            let st3 := { st2 with step := st2.step + 1 }
            match st3.is_stop with
            | true =>
              PanicOr.ok ((st3.updPage 1 sec page1.partial_erase).withResume ⟨1, sec⟩, true)
            | false =>
              let page1e := page1.erase
              let st3 := st3.updPage 1 sec page1e
              let st4 := { st3 with step := st3.step + 1 }
              match st4.is_stop with
              | true =>
                match page1e.partial_write abuf with
                | PanicOr.panicked m => PanicOr.panicked m
                | PanicOr.ok p => PanicOr.ok ((st4.updPage 1 sec p).withResume ⟨1, sec⟩, true)
              | false =>
                match page1e.write abuf with
                | PanicOr.panicked m => PanicOr.panicked m
                | PanicOr.ok page1w => PanicOr.ok (st4.updPage 1 sec page1w, false)
  | _, _ => PanicOr.panicked "index out of bounds"

/-- The `for sec in 0..len` loop of `Status::swap`: run `swapPage` on each
index until one halts (the `return` in the source) or the list is done. -/
def swapLoop (st : Status) : List Nat → PanicOr Status
  | [] => PanicOr.ok st
  | sec :: rest =>
    match swapPage st sec with
    | PanicOr.panicked m => PanicOr.panicked m
    | PanicOr.ok (st', true) => PanicOr.ok st'
    | PanicOr.ok (st', false) => swapLoop st' rest

/-- `Status::swap` (`main.rs`): assert equal slot lengths, then loop over all
page indices. -/
def Status.swap (st : Status) : PanicOr Status :=
  if st.slot0.data.length = st.slot1.data.length then
    swapLoop st (List.range st.slot0.data.length)
  else PanicOr.panicked "assertion failed"

/-- The `for sec` loop of `Status::final_check`: check both slots' pages at
each index against the swapped expected content. -/
def finalCheckLoop (st : Status) : List Nat → PanicOr Unit
  | [] => PanicOr.ok ()
  | sec :: rest =>
    match st.slot0.data[sec]?, st.slot1.data[sec]? with
    | some p0, some p1 =>
      match p0.check ⟨1, sec⟩ with
      | PanicOr.panicked m => PanicOr.panicked m
      | PanicOr.ok () =>
        match p1.check ⟨0, sec⟩ with
        | PanicOr.panicked m => PanicOr.panicked m
        | PanicOr.ok () => finalCheckLoop st rest
    | _, _ => PanicOr.panicked "index out of bounds"

/-- `Status::final_check` (`main.rs`). -/
def Status.final_check (st : Status) : PanicOr Unit :=
  finalCheckLoop st (List.range st.slot0.data.length)

-- ---------------------------------------------------------------------------
-- `flash.rs`: the simulated flash whose operations return explicit Results
-- ---------------------------------------------------------------------------

namespace Flash

/-- Printable name of a page state, standing in for the `{:?}` formatting in
the error messages of `flash.rs`. -/
def stateName : PageState → String
  | PageState.Written => "Written"
  | PageState.Erased => "Erased"
  | PageState.PartiallyWritten => "PartiallyWritten"
  | PageState.PartiallyErased => "PartiallyErased"

/-- `Page::new` (`flash.rs`): erased data, but marked `PartiallyErased` so a
real erase must happen before use. -/
def pageNew : Page :=
  { payload := List.replicate PAGE_SIZE 0xFF, pstate := PageState.PartiallyErased }

/-- `Page::read` (`flash.rs`): the payload when `Written`, otherwise an
explicit error value. -/
def read (p : Page) : Except String (List Nat) :=
  match p.pstate with
  | PageState.Written => Except.ok p.payload
  | st => Except.error ("Read from invalid state: " ++ stateName st)

/-- `Page::read_whatever` (`flash.rs`): always succeeds with the raw bytes. -/
def read_whatever (p : Page) : Except String (List Nat) :=
  Except.ok p.payload

/-- `Page::erase` (`flash.rs`): always succeeds. -/
def erase (p : Page) : Except String Page :=
  Except.ok { payload := List.replicate p.payload.length 0xFF, pstate := PageState.Erased }

/-- `Page::partial_erase` (`flash.rs`). -/
def partial_erase (p : Page) : Page :=
  { p with pstate := PageState.PartiallyErased }

/-- `Page::write` (`flash.rs`): errors unless the page is `Erased`.
(`copy_from_slice` additionally requires a page-sized buffer; the claims about
`write` carry that hypothesis.) -/
def write (p : Page) (buffer : List Nat) : Except String Page :=
  match p.pstate with
  | PageState.Erased => Except.ok { payload := buffer, pstate := PageState.Written }
  | st => Except.error ("Attempt to write to unerased page " ++ stateName st)

end Flash

-- ---------------------------------------------------------------------------
-- Stating the swap claims
-- ---------------------------------------------------------------------------

/-- The mutable part of a `Status`: everything but the construction-time
`root`/`parity` commitments (whose preservation is its own claim). -/
structure StatusCore where
  slot0 : Slot
  slot1 : Slot
  step : Nat
  stop : Option Nat
  resume : Option PageLocation
deriving DecidableEq, Repr

/-- Project a `Status` onto its mutable part. -/
def Status.core (s : Status) : StatusCore :=
  { slot0 := s.slot0, slot1 := s.slot1, step := s.step, stop := s.stop, resume := s.resume }

/-- Modelled from the spec (§4.3) and the claim text: the state an interrupted
6-page swap with stop threshold `t` is expected to halt in.  Sub-step
`t` (0-based; the first whose 1-based counter `t + 1` exceeds `t`) belongs to
page `t / 4` and is sub-step `t % 4` of that page: pages before it are fully
exchanged, the interrupted page holds the partial variant's outcome, and every
later page and sub-step is untouched. -/
def expectedStopCore (t : Nat) : StatusCore :=
  let sec := t / 4
  let q := t % 4
  { slot0 := { data := (List.range 6).map (fun i =>
        if i < sec then Page.new (some ⟨1, i⟩)
        else if i = sec then
          if q = 0 then { payload := fillBytes 0 sec, pstate := PageState.PartiallyErased }
          else if q = 1 then { payload := fillBytes 1 sec, pstate := PageState.PartiallyWritten }
          else { payload := fillBytes 1 sec, pstate := PageState.Written }
        else Page.new (some ⟨0, i⟩)), index := 0 },
    slot1 := { data := (List.range 6).map (fun i =>
        if i < sec then Page.new (some ⟨0, i⟩)
        else if i = sec then
          if q ≤ 1 then Page.new (some ⟨1, i⟩)
          else if q = 2 then { payload := fillBytes 1 sec, pstate := PageState.PartiallyErased }
          else { payload := fillBytes 0 sec, pstate := PageState.PartiallyWritten }
        else Page.new (some ⟨1, i⟩)), index := 1 },
    step := t + 1, stop := some t,
    resume := some ⟨if q ≤ 1 then 0 else 1, sec⟩ }

/-- The outcome of a swap, projected onto the mutable core. -/
def swapCore (s : Status) : PanicOr StatusCore :=
  match s.swap with
  | PanicOr.ok s' => PanicOr.ok s'.core
  | PanicOr.panicked m => PanicOr.panicked m

/-- `fn main()`: run the swap, then the final check. -/
def swapThenCheck (s : Status) : PanicOr Unit :=
  match s.swap with
  | PanicOr.ok s' => s'.final_check
  | PanicOr.panicked m => PanicOr.panicked m

/-- Modelled from the spec (§4.5) and the claim text: the mutable core an
uninterrupted 6-page swap must end in — each slot holding the other's
original position-derived patterns, all 24 sub-steps executed, no resume
marker. -/
def expectedFinalCore : StatusCore :=
  { slot0 := { data := (List.range 6).map (fun i => Page.new (some ⟨1, i⟩)), index := 0 },
    slot1 := { data := (List.range 6).map (fun i => Page.new (some ⟨0, i⟩)), index := 1 },
    step := 24, stop := none, resume := none }

/-- Map over the value of a non-panicking outcome. -/
def PanicOr.map {α β : Type} (f : α → β) : PanicOr α → PanicOr β
  | PanicOr.ok a => PanicOr.ok (f a)
  | PanicOr.panicked m => PanicOr.panicked m

/-- Modelled from the claim (and spec §8, parity reconstruction): the
byte-wise XOR fold of every page's payload except page `k`, computed the same
way `compute_parity` folds all of them. -/
def xorExcept (s : Slot) (k : Nat) : List Nat :=
  (s.data.eraseIdx k).foldl (fun r p => xorInto r p.payload) (List.replicate PAGE_SIZE 0)

-- ---------------------------------------------------------------------------
-- Helper lemmas
-- ---------------------------------------------------------------------------

/-- `Nat.xor` is the `^^^` operation. -/
theorem natXor_eq (x y : Nat) : Nat.xor x y = x ^^^ y := rfl

/-- XOR cancellation: `x ^^^ (y ^^^ x) = y`. -/
theorem xor_cancel_left (x y : Nat) : x ^^^ (y ^^^ x) = y := by
  rw [Nat.xor_comm y x, ← Nat.xor_assoc, Nat.xor_self, Nat.zero_xor]

/-- XOR pair cancellation: `(a ^^^ b) ^^^ (a ^^^ c) = b ^^^ c`. -/
theorem xor_pair (a b c : Nat) : (a ^^^ b) ^^^ (a ^^^ c) = b ^^^ c := by
  rw [Nat.xor_comm a b, Nat.xor_assoc, ← Nat.xor_assoc a a c, Nat.xor_self, Nat.zero_xor]

/-- `xorInto` keeps the length of its first argument (the parity accumulator). -/
theorem xorInto_length : ∀ a b : List Nat, (xorInto a b).length = a.length := by
  intro a
  induction a with
  | nil => intro b; cases b <;> rfl
  | cons x xs ih => intro b; cases b with
    | nil => rfl
    | cons y ys => simp [xorInto, ih]

/-- On equal-length lists `xorInto` is the pointwise XOR. -/
theorem xorInto_eq_zipWith : ∀ a b : List Nat, a.length = b.length →
    xorInto a b = List.zipWith Nat.xor a b := by
  intro a
  induction a with
  | nil => intro b h; cases b <;> simp_all [xorInto]
  | cons x xs ih => intro b h; cases b with
    | nil => simp at h
    | cons y ys => simp [xorInto, ih ys (by simpa using h), natXor_eq]

/-- XORing a zero block on the right is the identity. -/
theorem zipWith_xor_zero_right : ∀ a : List Nat, ∀ n, a.length = n →
    List.zipWith Nat.xor a (List.replicate n 0) = a := by
  intro a
  induction a with
  | nil => intro n h; simp
  | cons x xs ih =>
    intro n h
    cases n with
    | zero => simp at h
    | succ m => simp [List.replicate_succ, ih m (by simpa using h), natXor_eq]

/-- XORing into a zero block yields the payload itself. -/
theorem zipWith_xor_zero_left : ∀ a : List Nat, ∀ n, a.length = n →
    List.zipWith Nat.xor (List.replicate n 0) a = a := by
  intro a
  induction a with
  | nil => intro n h; simp
  | cons x xs ih =>
    intro n h
    cases n with
    | zero => simp at h
    | succ m => simp [List.replicate_succ, ih m (by simpa using h), natXor_eq]

/-- Pointwise XOR of lists is associative. -/
theorem zipWith_xor_assoc : ∀ a b c : List Nat,
    List.zipWith Nat.xor (List.zipWith Nat.xor a b) c =
      List.zipWith Nat.xor a (List.zipWith Nat.xor b c) := by
  intro a
  induction a with
  | nil => intro b c; simp
  | cons x xs ih =>
    intro b c
    cases b with
    | nil => simp
    | cons y ys =>
      cases c with
      | nil => simp
      | cons z zs => simp [ih ys zs, natXor_eq, Nat.xor_assoc]

/-- `a ⊕ (b ⊕ a) = b` pointwise on equal-length lists. -/
theorem zipWith_xor_cancel : ∀ a b : List Nat, a.length = b.length →
    List.zipWith Nat.xor a (List.zipWith Nat.xor b a) = b := by
  intro a
  induction a with
  | nil => intro b h; cases b <;> simp_all
  | cons x xs ih =>
    intro b h
    cases b with
    | nil => simp at h
    | cons y ys =>
      simp [natXor_eq, xor_cancel_left, ih ys (by simpa using h)]

/-- `(p ⊕ x) ⊕ (p ⊕ y) = x ⊕ y` pointwise on equal-length lists. -/
theorem zipWith_xor_pair_cancel : ∀ p x y : List Nat, x.length = p.length → y.length = p.length →
    List.zipWith Nat.xor (List.zipWith Nat.xor p x) (List.zipWith Nat.xor p y) =
      List.zipWith Nat.xor x y := by
  intro p
  induction p with
  | nil =>
    intro x y hx hy
    rw [List.eq_nil_of_length_eq_zero hx, List.eq_nil_of_length_eq_zero hy]
    simp
  | cons a ps ih =>
    intro x y hx hy
    cases x with
    | nil => simp at hx
    | cons b xs =>
      cases y with
      | nil => simp at hy
      | cons c ys =>
        simp [natXor_eq, xor_pair, ih xs ys (by simpa using hx) (by simpa using hy)]

/-- Membership survives removing an index. -/
theorem mem_eraseIdx : ∀ (l : List Page) (k : Nat) (p : Page), p ∈ l.eraseIdx k → p ∈ l := by
  intro l
  induction l with
  | nil => intro k p h; simp [List.eraseIdx] at h
  | cons a as ih =>
    intro k p h
    cases k with
    | zero => exact List.mem_cons_of_mem a h
    | succ m =>
      rcases List.mem_cons.mp h with h | h
      · exact h ▸ List.mem_cons_self a as
      · exact List.mem_cons_of_mem a (ih m p h)

/-- The parity fold keeps the accumulator's length. -/
theorem parityFold_length : ∀ (l : List Page) (r : List Nat),
    (List.foldl (fun r p => xorInto r p.payload) r l).length = r.length := by
  intro l
  induction l with
  | nil => intro r; rfl
  | cons p rest ih => intro r; simp only [List.foldl_cons, ih, xorInto_length]

/-- Folding page payloads into an accumulator is XORing the accumulator with
the fold from zero, for page-sized payloads. -/
theorem parityFold_acc : ∀ (l : List Page) (r : List Nat), r.length = PAGE_SIZE →
    (∀ p ∈ l, p.payload.length = PAGE_SIZE) →
    List.foldl (fun r p => xorInto r p.payload) r l =
      List.zipWith Nat.xor r
        (List.foldl (fun r p => xorInto r p.payload) (List.replicate PAGE_SIZE 0) l) := by
  intro l
  induction l with
  | nil =>
    intro r hr _
    simp only [List.foldl_nil]
    exact (zipWith_xor_zero_right r PAGE_SIZE hr).symm
  | cons p rest ih =>
    intro r hr hlen
    have hp : p.payload.length = PAGE_SIZE := hlen p (List.mem_cons_self p rest)
    have hrest : ∀ q ∈ rest, q.payload.length = PAGE_SIZE :=
      fun q hq => hlen q (List.mem_cons_of_mem p hq)
    simp only [List.foldl_cons]
    rw [ih (xorInto r p.payload) (by rw [xorInto_length]; exact hr) hrest,
      xorInto_eq_zipWith r p.payload (by rw [hr, hp]),
      xorInto_eq_zipWith (List.replicate PAGE_SIZE 0) p.payload (by simp [hp]),
      zipWith_xor_zero_left p.payload PAGE_SIZE hp,
      ih p.payload hp hrest, zipWith_xor_assoc]

/-- Parity reconstruction over a raw page list: the XOR of all payloads but
the one at `k`, XORed with the XOR of all payloads, is the payload at `k`. -/
theorem parity_reconstruct_aux : ∀ (l : List Page) (k : Nat) (hk : k < l.length),
    (∀ p ∈ l, p.payload.length = PAGE_SIZE) →
    xorInto (List.foldl (fun r p => xorInto r p.payload) (List.replicate PAGE_SIZE 0) (l.eraseIdx k))
        (List.foldl (fun r p => xorInto r p.payload) (List.replicate PAGE_SIZE 0) l) =
      (l.get ⟨k, hk⟩).payload := by
  intro l
  induction l with
  | nil => intro k hk; simp at hk
  | cons p rest ih =>
    intro k hk hlen
    have hp : p.payload.length = PAGE_SIZE := hlen p (List.mem_cons_self p rest)
    have hrest : ∀ q ∈ rest, q.payload.length = PAGE_SIZE :=
      fun q hq => hlen q (List.mem_cons_of_mem p hq)
    have hFlen : ∀ m : List Page,
        (List.foldl (fun r p => xorInto r p.payload) (List.replicate PAGE_SIZE 0) m).length
          = PAGE_SIZE := by
      intro m; rw [parityFold_length]; simp
    have hconsF : ∀ m : List Page, (∀ q ∈ m, q.payload.length = PAGE_SIZE) →
        List.foldl (fun r p => xorInto r p.payload) (List.replicate PAGE_SIZE 0) (p :: m) =
          List.zipWith Nat.xor p.payload
            (List.foldl (fun r p => xorInto r p.payload) (List.replicate PAGE_SIZE 0) m) := by
      intro m hm
      simp only [List.foldl_cons]
      rw [xorInto_eq_zipWith (List.replicate PAGE_SIZE 0) p.payload (by simp [hp]),
        zipWith_xor_zero_left p.payload PAGE_SIZE hp]
      exact parityFold_acc m p.payload hp hm
    cases k with
    | zero =>
      simp only [List.eraseIdx, List.get]
      rw [hconsF rest hrest,
        xorInto_eq_zipWith _ _ (by rw [hFlen]; simp [hFlen, hp]),
        zipWith_xor_cancel _ _ (by rw [hFlen, hp])]
    | succ m =>
      have hm : m < rest.length := by simpa using hk
      simp only [List.eraseIdx, List.get]
      rw [hconsF rest hrest, hconsF (rest.eraseIdx m)
          (fun q hq => hrest q (mem_eraseIdx rest m q hq)),
        xorInto_eq_zipWith _ _ (by simp [List.length_zipWith, hFlen, hp]),
        zipWith_xor_pair_cancel p.payload _ _ (by rw [hFlen, hp]) (by rw [hFlen, hp]),
        ← xorInto_eq_zipWith _ _ (by rw [hFlen, hFlen])]
      exact ih m hm hrest

/-- The streamed digests depend only on the pages' payloads. -/
theorem digestsFrom_congr (slot : Nat) :
    ∀ (i : Nat) (l1 l2 : List Page), l1.map Page.payload = l2.map Page.payload →
      digestsFrom slot i l1 = digestsFrom slot i l2 := by
  intro i l1
  induction l1 generalizing i with
  | nil => intro l2 h; cases l2 <;> simp_all [digestsFrom]
  | cons p rest ih =>
    intro l2 h
    cases l2 with
    | nil => simp at h
    | cons q rest2 =>
      simp only [List.map_cons, List.cons.injEq] at h
      simp only [digestsFrom, Page.digest, h.1, ih (i + 1) rest2 h.2]

/-- The parity fold depends only on the pages' payloads. -/
theorem parityFold_congr :
    ∀ (l1 l2 : List Page), l1.map Page.payload = l2.map Page.payload →
      ∀ r : List Nat,
        l1.foldl (fun r p => xorInto r p.payload) r = l2.foldl (fun r p => xorInto r p.payload) r := by
  intro l1
  induction l1 with
  | nil => intro l2 h r; cases l2 <;> simp_all
  | cons p rest ih =>
    intro l2 h r
    cases l2 with
    | nil => simp at h
    | cons q rest2 =>
      simp only [List.map_cons, List.cons.injEq] at h
      simp only [List.foldl_cons, h.1, ih rest2 h.2]

/-- One swap-loop iteration never touches the `root`, `parity` or `stop`
fields. -/
theorem swapPage_frame (st : Status) (sec : Nat) (st' : Status) (b : Bool)
    (h : swapPage st sec = PanicOr.ok (st', b)) :
    st'.root = st.root ∧ st'.parity = st.parity ∧ st'.stop = st.stop := by
  unfold swapPage at h
  repeat' (first | split at h | simp only [] at h)
  all_goals cases h
  all_goals exact ⟨rfl, rfl, rfl⟩

/-- The whole swap loop never touches the `root`, `parity` or `stop` fields. -/
theorem swapLoop_frame : ∀ (l : List Nat) (st st' : Status),
    swapLoop st l = PanicOr.ok st' →
    st'.root = st.root ∧ st'.parity = st.parity ∧ st'.stop = st.stop := by
  intro l
  induction l with
  | nil =>
    intro st st' h
    cases h
    exact ⟨rfl, rfl, rfl⟩
  | cons sec rest ih =>
    intro st st' h
    unfold swapLoop at h
    cases hsp : swapPage st sec with
    | panicked m => rw [hsp] at h; cases h
    | ok pair =>
      obtain ⟨stm, b⟩ := pair
      rw [hsp] at h
      cases b with
      | true =>
        cases h
        exact swapPage_frame st sec st' true hsp
      | false =>
        have h1 := swapPage_frame st sec stm false hsp
        have h2 := ih stm st' h
        exact ⟨h2.1.trans h1.1, h2.2.1.trans h1.2.1, h2.2.2.trans h1.2.2⟩

-- ---------------------------------------------------------------------------
-- Claim theorems
-- ---------------------------------------------------------------------------

/-- C1: for the 6-page two-slot setup whose pages are pre-filled with the
deterministic position-derived pattern, running `swap()` with no stop
threshold terminates after executing all 4N = 24 sub-steps (no resume marker
recorded), `final_check()` then succeeds, and for every page index `sec`
slot 0's page holds the expected content for `PageLocation{slot 1, sec}` and
slot 1's page the expected content for `PageLocation{slot 0, sec}`. -/
theorem c1_swap_completeness :
    swapThenCheck (Status.new 6) = PanicOr.ok () ∧
    swapCore (Status.new 6) = PanicOr.ok expectedFinalCore ∧
    ∀ sec : Nat, sec < 6 →
      expectedFinalCore.slot0.data[sec]? = some (Page.new (some ⟨1, sec⟩)) ∧
      expectedFinalCore.slot1.data[sec]? = some (Page.new (some ⟨0, sec⟩)) := by
  decide

/-- C2: for every stop threshold `t < 4N` (N = 6, so `t < 24`), `swap()`
halts at the first sub-step whose step counter exceeds `t`: it performs the
partial variant of that sub-step, records `resume = PageLocation{slot, sec}`
with slot 0 for the first two sub-steps of page `sec = t / 4` and slot 1 for
the last two, and returns at once, leaving the rest of the current page's
sub-steps and all later pages untouched — the halted state equals
`expectedStopCore t` exactly. -/
theorem c2_stop_thresholds (t : Nat) (h : t < 24) :
    swapCore ((Status.new 6).withStop t) = PanicOr.ok (expectedStopCore t) := by
  revert t
  decide

/-- C2 witness: threshold 5 interrupts the write sub-step of page 1. -/
theorem c2_stop_thresholds_witness :
    swapCore ((Status.new 6).withStop 5) = PanicOr.ok (expectedStopCore 5) :=
  c2_stop_thresholds 5 (by decide)

/-- C3 counterexample: `main.rs` `Page::read` on an erased page aborts with a
panic instead of returning an explicit failure value, contradicting the
claimed propagation policy for the `main.rs` Page/Slot/Coordinator core. -/
theorem c3_counterexample :
    (Page.new none).read = PanicOr.panicked "Invalid state for read" := rfl

/-- C3 (amended): in `flash.rs` every invalid-state error is returned as an
explicit failure value, but in `main.rs` the corresponding Page operations
(`read`, `write`, and `check`) convert the detected error into a process
abort (panic). -/
theorem c3_error_propagation (p : Page) (buffer : List Nat) (loc : PageLocation) :
    (p.pstate ≠ PageState.Written →
      (∃ m, Flash.read p = Except.error m) ∧ ∃ m, p.read = PanicOr.panicked m) ∧
    (p.pstate ≠ PageState.Erased →
      (∃ m, Flash.write p buffer = Except.error m) ∧ ∃ m, p.write buffer = PanicOr.panicked m) ∧
    (p.check loc ≠ PanicOr.ok () → ∃ m, p.check loc = PanicOr.panicked m) := by
  obtain ⟨payload, pstate⟩ := p
  refine ⟨?_, ?_, ?_⟩
  · cases pstate <;> simp [Flash.read, Page.read]
  · cases pstate <;> simp [Flash.write, Page.write]
  · intro h
    simp only [Page.check] at h ⊢
    split_ifs at h ⊢ <;> first | exact ⟨_, rfl⟩ | exact absurd rfl h

/-- C4: for every slot whose pages are page-sized and every index `k` in
range, the byte-wise XOR of all payloads except page `k`, XORed with the
slot's `compute_parity()` result, is exactly page `k`'s payload. -/
theorem c4_parity_reconstruction (s : Slot) (k : Nat) (hk : k < s.data.length)
    (hlen : ∀ p ∈ s.data, p.payload.length = PAGE_SIZE) :
    xorInto (xorExcept s k) s.compute_parity = (s.data.get ⟨k, hk⟩).payload :=
  parity_reconstruct_aux s.data k hk hlen

/-- C4 witness: reconstructing page 1 of a freshly seeded 3-page slot. -/
theorem c4_parity_reconstruction_witness :
    xorInto (xorExcept (Slot.new 0 3) 1) (Slot.new 0 3).compute_parity =
      ((Slot.new 0 3).data.get ⟨1, by decide⟩).payload :=
  c4_parity_reconstruction (Slot.new 0 3) 1 (by decide) (by decide)

/-- C5 counterexample: the `as u32` casts in `Page::digest` truncate the page
index, so the distinct indices 0 and 2^32 = 4294967296 produce identical
digests for the same payload, refuting "digests for {0,i} and {0,j} with
i ≠ j are unequal" as stated over arbitrary indices. -/
theorem c5_counterexample :
    (0 : Nat) ≠ 4294967296 ∧
    (Page.new none).digest ⟨0, 0⟩ = (Page.new none).digest ⟨0, 4294967296⟩ :=
  ⟨by decide, rfl⟩

/-- C5 (amended): `digest` hashes the fixed-width little-endian encodings of
the slot and page index truncated to u32, concatenated before the payload;
for indices below 2^32 the hash inputs for `{0,i}` vs `{1,i}` and for
`{0,i}` vs `{0,j}` (i ≠ j) always differ (so equal digests would be a
SHA-256 collision), and for the all-0xFF payload with indices below 6 the
digests themselves are pairwise unequal — but indices congruent mod 2^32
collide. -/
theorem c5_digest_binding (payload : List Nat) (i j : Nat)
    (hi : i < 4294967296) (hj : j < 4294967296) (hij : i ≠ j) :
    ((⟨payload, PageState.Written⟩ : Page).digest ⟨0, i⟩ = sha256 (digestInput 0 i payload)) ∧
    digestInput 0 i payload ≠ digestInput 1 i payload ∧
    digestInput 0 i payload ≠ digestInput 0 j payload ∧
    (∀ a : Nat, a < 6 → ∀ b : Nat, b < 6 → a ≠ b →
      (Page.new none).digest ⟨0, a⟩ ≠ (Page.new none).digest ⟨0, b⟩ ∧
      (Page.new none).digest ⟨0, a⟩ ≠ (Page.new none).digest ⟨1, a⟩) := by
  refine ⟨rfl, ?_, ?_, by decide⟩
  · intro h
    simp [digestInput, le32] at h
  · intro h
    simp [digestInput, le32, Nat.mod_eq_of_lt hi, Nat.mod_eq_of_lt hj] at h
    omega

/-- C5 witness: indices 0 and 1 with the empty payload give distinct hash
inputs for slots 0 and 1. -/
theorem c5_digest_binding_witness :
    digestInput 0 0 [] ≠ digestInput 1 0 [] :=
  (c5_digest_binding [] 0 1 (by decide) (by decide) (by decide)).2.1

/-- C6: for every page and page-sized buffer, `write` fails with an
invalid-state outcome from any state other than `Erased` (an explicit error
in `flash.rs`, a panic in `main.rs`), and from `Erased` it succeeds, copies
the buffer into the payload and moves the state to `Written`. -/
theorem c6_erase_before_write (p : Page) (buffer : List Nat)
    (hlen : buffer.length = p.payload.length) :
    (p.pstate ≠ PageState.Erased →
      (∃ m, Flash.write p buffer = Except.error m) ∧
      ∃ m, p.write buffer = PanicOr.panicked m) ∧
    (p.pstate = PageState.Erased →
      Flash.write p buffer = Except.ok { payload := buffer, pstate := PageState.Written } ∧
      p.write buffer = PanicOr.ok { payload := buffer, pstate := PageState.Written }) := by
  obtain ⟨payload, pstate⟩ := p
  cases pstate <;> simp [Flash.write, Page.write]

/-- C6 witness: writing an erased page succeeds; writing a written page is
refused with an explicit error. -/
theorem c6_erase_before_write_witness :
    Flash.write (Page.new none) (List.replicate PAGE_SIZE 0) =
      Except.ok { payload := List.replicate PAGE_SIZE 0, pstate := PageState.Written } ∧
    ∃ m, Flash.write (Page.new (some ⟨0, 0⟩)) (List.replicate PAGE_SIZE 0) = Except.error m :=
  ⟨((c6_erase_before_write (Page.new none) (List.replicate PAGE_SIZE 0) (by decide)).2 (by decide)).1,
   ((c6_erase_before_write (Page.new (some ⟨0, 0⟩)) (List.replicate PAGE_SIZE 0) (by decide)).1 (by decide)).1⟩

/-- C7: for every page, `flash.rs` `read` succeeds exactly in the `Written`
state (returning the payload) and fails with an explicit error otherwise,
while `read_whatever` always succeeds and returns the raw buffer bytes
regardless of state. -/
theorem c7_read_gating (p : Page) :
    (p.pstate = PageState.Written → Flash.read p = Except.ok p.payload) ∧
    (p.pstate ≠ PageState.Written → ∃ m, Flash.read p = Except.error m) ∧
    Flash.read_whatever p = Except.ok p.payload := by
  obtain ⟨payload, pstate⟩ := p
  cases pstate <;> simp [Flash.read, Flash.read_whatever]

/-- C8: `root` and `parity` are computed exactly once, at construction
(`root` over slot 1's initial content, `parity` over slot 0's), and whenever
`swap()` returns a status its `root`, `parity` and `stop` fields are those of
the input — only the slots, `step` and `resume` can have been mutated. -/
theorem c8_commitments_frozen (n : Nat) (s : Status) :
    (Status.new n).root = (Slot.new 1 n).compute_root ∧
    (Status.new n).parity = (Slot.new 0 n).compute_parity ∧
    s.swap.map Status.root = s.swap.map (fun _ => s.root) ∧
    s.swap.map Status.parity = s.swap.map (fun _ => s.parity) ∧
    s.swap.map Status.stop = s.swap.map (fun _ => s.stop) := by
  refine ⟨rfl, rfl, ?_, ?_, ?_⟩ <;>
  · unfold Status.swap
    split
    · cases hl : swapLoop s (List.range s.slot0.data.length) with
      | panicked m => simp [PanicOr.map, hl]
      | ok st' =>
        have := swapLoop_frame (List.range s.slot0.data.length) s st' hl
        simp [PanicOr.map, hl, this.1, this.2.1, this.2.2]
    · simp [PanicOr.map]

/-- C9: `partial_write` has `write`'s precondition: on a page whose state is
not `Erased` it aborts (the inner `write` panics) without depositing the
buffer, and on an `Erased` page it deposits the full target buffer and leaves
the page `PartiallyWritten`. -/
theorem c9_partial_write_contract (p : Page) (buffer : List Nat)
    (hlen : buffer.length = p.payload.length) :
    (p.pstate ≠ PageState.Erased → ∃ m, p.partial_write buffer = PanicOr.panicked m) ∧
    (p.pstate = PageState.Erased →
      p.partial_write buffer = PanicOr.ok { payload := buffer, pstate := PageState.PartiallyWritten }) := by
  obtain ⟨payload, pstate⟩ := p
  cases pstate <;> simp [Page.partial_write, Page.write]

/-- C9 witness: a partial write lands on an erased page as `PartiallyWritten`
and aborts on a written page. -/
theorem c9_partial_write_contract_witness :
    Page.partial_write (Page.new none) (List.replicate PAGE_SIZE 0) =
      PanicOr.ok { payload := List.replicate PAGE_SIZE 0, pstate := PageState.PartiallyWritten } ∧
    ∃ m, Page.partial_write (Page.new (some ⟨1, 2⟩)) (List.replicate PAGE_SIZE 0) = PanicOr.panicked m :=
  ⟨(c9_partial_write_contract (Page.new none) (List.replicate PAGE_SIZE 0) (by decide)).2 (by decide),
   (c9_partial_write_contract (Page.new (some ⟨1, 2⟩)) (List.replicate PAGE_SIZE 0) (by decide)).1 (by decide)⟩

/-- C10: `digest`, `compute_root` and `compute_parity` read payloads only and
ignore the state tag: pages (or slots, at the same index) with byte-identical
payloads but arbitrary differing states yield identical digests, Merkle roots
and parity blocks. -/
theorem c10_state_independence (p q : Page) (loc : PageLocation) (s t : Slot)
    (hpq : p.payload = q.payload) (hidx : s.index = t.index)
    (hdat : s.data.map Page.payload = t.data.map Page.payload) :
    p.digest loc = q.digest loc ∧
    s.compute_root = t.compute_root ∧
    s.compute_parity = t.compute_parity := by
  refine ⟨?_, ?_, ?_⟩
  · simp only [Page.digest, hpq]
  · simp only [Slot.compute_root, hidx, digestsFrom_congr t.index 0 s.data t.data hdat]
  · simp only [Slot.compute_parity, parityFold_congr s.data t.data hdat]

/-- C10 witness: an `Erased` all-0xFF page and a `PartiallyErased` all-0xFF
page (the `flash.rs` fresh page) agree on digest, root and parity. -/
theorem c10_state_independence_witness :
    (Page.new none).digest ⟨0, 0⟩ = Flash.pageNew.digest ⟨0, 0⟩ ∧
    Slot.compute_root { data := [Page.new none], index := 1 } =
      Slot.compute_root { data := [Flash.pageNew], index := 1 } ∧
    Slot.compute_parity { data := [Page.new none], index := 1 } =
      Slot.compute_parity { data := [Flash.pageNew], index := 1 } :=
  c10_state_independence (Page.new none) Flash.pageNew ⟨0, 0⟩
    { data := [Page.new none], index := 1 } { data := [Flash.pageNew], index := 1 }
    rfl rfl rfl
